import Mathlib

/-!
Verification of the `timeframe` library (src/lib.rs, src/ext.rs, src/error.rs).

Model of `chrono::DateTime<Tz>`: the library is generic over a time zone whose
offset is `Copy`, and every operation it performs (minute-of-hour extraction,
minute/second field replacement, adding minute- or hour-granularity durations,
comparison, subtraction) acts on the local wall-clock reading, which for a
fixed offset moves in lockstep with the absolute instant.  We therefore
represent a `DateTime` by its local wall-clock time as a count of nanoseconds
(`Int`), chrono's sub-second resolution.  The finite range of chrono dates is
not modelled: the spec treats timestamp arithmetic as an external capability
and windows only span minutes to hours.

Rust panics are modelled by an outer `Option` layer (`none` = panic), needed
because `clamp_window` evaluates `60 % window` before clamping, which panics
for `window = 0`.  The inner `Option` is the `Option`/`Result` the Rust
function itself returns.
-/

namespace TimeframeLib

def nanosPerSec : Int := 1000000000

def nanosPerMin : Int := 60 * nanosPerSec

def nanosPerHour : Int := 60 * nanosPerMin

/-- Minute-of-hour of the local wall-clock time (chrono `Timelike::minute`). -/
def minute (t : Int) : Nat := (((t / nanosPerMin) % 60).toNat)

/-- Second-of-minute of the local wall-clock time (chrono `Timelike::second`). -/
def second (t : Int) : Nat := (((t / nanosPerSec) % 60).toNat)

/-- Sub-second (nanosecond) component of the local wall-clock time. -/
def subsec (t : Int) : Int := t % nanosPerSec

/-- Index of the hour the instant lies in (counts whole hours; everything at
granularity one hour and above — hour-of-day, day, month, year — is a function
of this index, so "hour/day unchanged" is `hourIdx` unchanged). -/
def hourIdx (t : Int) : Int := t / nanosPerHour

/-- chrono `Timelike::with_minute`: replaces the minute field, `None` for an
out-of-range minute value. -/
def with_minute (t : Int) (m : Nat) : Option Int :=
  if m < 60 then some (t + ((m : Int) - (minute t : Int)) * nanosPerMin) else none

/-- chrono `Timelike::with_second`: replaces the second field, `None` for an
out-of-range second value.  Sub-second components are left untouched. -/
def with_second (t : Int) (s : Nat) : Option Int :=
  if s < 60 then some (t + ((s : Int) - (second t : Int)) * nanosPerSec) else none

/-- chrono `checked_add_signed(TimeDelta::hours(h))`.  The finite chrono date
range (`None` on overflow) is not modelled, see the header comment. -/
def checked_add_hours (t : Int) (h : Int) : Option Int :=
  some (t + h * nanosPerHour)

/-- chrono `TimeDelta::num_seconds` of a delta of `d` nanoseconds: truncation
toward zero. -/
def num_seconds (d : Int) : Int := d.tdiv nanosPerSec

/-- chrono `TimeDelta::num_minutes` (`num_seconds() / 60`, Rust `i64` division
truncates toward zero). -/
def num_minutes (d : Int) : Int := (num_seconds d).tdiv 60

/-- chrono `TimeDelta::num_days` (`num_seconds() / 86400`). -/
def num_days (d : Int) : Int := (num_seconds d).tdiv 86400

/-- chrono `TimeDelta::num_weeks` (`num_days() / 7`). -/
def num_weeks (d : Int) : Int := (num_days d).tdiv 7

/-- `pub type TimeWindow = u32;` (src/lib.rs). -/
abbrev TimeWindow := Nat

/-- `clamp_window` (src/ext.rs): checks whether the window is a factor of 60,
then clamps it to `[1, 60]`.  The divisibility test `60 % window != 0` is
evaluated first, so `window = 0` panics (`none` in the outer layer): Rust's
`%` by zero aborts. -/
def clamp_window (window : TimeWindow) : Option (Option TimeWindow) :=
  if window = 0 then none
  else if 60 % window ≠ 0 then some none
  else some (some (min (max window 1) 60))

/-- `prep_time` (src/ext.rs): routes the window through `clamp_window` and
returns the clamped window together with the datetime's minute. -/
def prep_time (t : Int) (window : TimeWindow) : Option (Option (TimeWindow × Nat)) :=
  match clamp_window window with
  | none => none
  | some none => some none
  | some (some w) => some (some (w, minute t))

/-- `ClosestFloor::closest_floor` (src/ext.rs). -/
def closest_floor (t : Int) (window : TimeWindow) : Option (Option Int) :=
  match prep_time t window with
  | none => none
  | some none => some none
  | some (some (w, start_min)) =>
      some ((with_minute t ((start_min / w) * w)).bind (fun t1 => with_second t1 0))

/-- `ClosestCeil::closest_ceil` (src/ext.rs).  `div_ceil` on `u32` is
`(a + b - 1) / b` for the small values that occur here. -/
def closest_ceil (t : Int) (window : TimeWindow) : Option (Option Int) :=
  match prep_time t window with
  | none => none
  | some none => some none
  | some (some (w, start_min)) =>
      let closestCeil := ((start_min + w - 1) / w) * w
      some (if 60 ≤ closestCeil then
              (checked_add_hours t 1).bind (fun t1 =>
                (with_minute t1 0).bind (fun t2 => with_second t2 0))
            else
              (with_minute t closestCeil).bind (fun t1 => with_second t1 0))

/-- `TimeErr` (src/error.rs). -/
inductive TimeErr where
  | Floor
  | Ceil
  | FrameTooLarge
  | Other (msg : String)
deriving DecidableEq

instance {ε α : Type} [DecidableEq ε] [DecidableEq α] : DecidableEq (Except ε α) := fun x y =>
  match x, y with
  | .error a, .error b =>
      if h : a = b then .isTrue (by rw [h]) else .isFalse (fun hc => h (by injection hc))
  | .ok a, .ok b =>
      if h : a = b then .isTrue (by rw [h]) else .isFalse (fun hc => h (by injection hc))
  | .error _, .ok _ => .isFalse (fun hc => Except.noConfusion hc)
  | .ok _, .error _ => .isFalse (fun hc => Except.noConfusion hc)

/-- `Timeframe` (src/lib.rs): a pair of timestamps with no alignment
guarantee. -/
structure Timeframe where
  start : Int
  «end» : Int
deriving DecidableEq

/-- `EvenTimeframe` (src/lib.rs): a `Timeframe` plus its window. -/
structure EvenTimeframe where
  frame : Timeframe
  window : TimeWindow
deriving DecidableEq

/-- Rust `Iterator::min_by_key` over a list of naturals: if several elements
are equally minimum, the first one is returned. -/
def min_by_key_first (key : Nat → Nat) : List Nat → Option Nat
  | [] => none
  | x :: xs => some (xs.foldl (fun best n => if key n < key best then n else best) x)

/-- The constant `FACTORS_60` of `closest_factor_of_60` (src/lib.rs). -/
def FACTORS_60 : List Nat := [1, 2, 3, 4, 5, 6, 10, 12, 15, 20, 30, 60]

/-- `closest_factor_of_60` (src/lib.rs): clamps the window to `[0, 60]` and
picks the member of `FACTORS_60` with the least absolute difference
(`u32::abs_diff`, i.e. `Nat.dist`).  The source's `.unwrap()` cannot fail
because the list is non-empty, hence the `getD`. -/
def closest_factor_of_60 (window : TimeWindow) : TimeWindow :=
  let w := min window 60
  (min_by_key_first (fun n => Nat.dist w n) FACTORS_60).getD 0

/-- `EvenTimeframe::align` (src/lib.rs): re-floors `start` and sets
`end = start + window minutes`.  On failure the source leaves the frame
unchanged and returns `None` (inner `none` here). -/
def EvenTimeframe.align (s : EvenTimeframe) : Option (Option EvenTimeframe) :=
  match closest_floor s.frame.start s.window with
  | none => none
  | some none => some none
  | some (some ns) =>
      some (some ⟨⟨ns, ns + (s.window : Int) * nanosPerMin⟩, s.window⟩)

/-- `EvenTimeframe::new` (src/lib.rs): resolves the window through
`closest_factor_of_60`, builds the provisional frame and aligns it.  The
source ignores `align`'s result, so on (impossible-here) failure the
provisional frame would be kept. -/
def EvenTimeframe.new (start : Int) (window : TimeWindow) : EvenTimeframe :=
  let w := closest_factor_of_60 window
  let s : EvenTimeframe := ⟨⟨start, start + (w : Int) * nanosPerMin⟩, w⟩
  match s.align with
  | some (some s2) => s2
  | _ => s

/-- `EvenTimeframe::prev` (src/lib.rs). -/
def EvenTimeframe.prev (s : EvenTimeframe) : EvenTimeframe :=
  ⟨⟨s.frame.start - (s.window : Int) * nanosPerMin, s.frame.start⟩, s.window⟩

/-- `EvenTimeframe.next` (src/lib.rs). -/
def EvenTimeframe.next (s : EvenTimeframe) : EvenTimeframe :=
  ⟨⟨s.frame.«end», s.frame.«end» + (s.window : Int) * nanosPerMin⟩, s.window⟩

/-- The emission loop of `split` (src/lib.rs): `while curr < frame.end` push
`[curr, curr + window minutes)` and advance.  `fuel` bounds the number of
iterations so the recursion is structural; the loop itself terminates because
the clamped window is at least one minute, and the call site in `split`
passes `(end - start) / (window minutes) + 1` iterations, which always
suffices. -/
def split_walk (w : TimeWindow) (stop : Int) : Nat → Int → List EvenTimeframe
  | 0, _ => []
  | fuel + 1, curr =>
      if curr < stop then
        ⟨⟨curr, curr + (w : Int) * nanosPerMin⟩, w⟩ ::
          split_walk w stop fuel (curr + (w : Int) * nanosPerMin)
      else []

/-- `EvenTimeframe::split` (src/lib.rs). -/
def EvenTimeframe.split (frame : Timeframe) (window : TimeWindow) :
    Option (Except TimeErr (List EvenTimeframe)) :=
  match clamp_window window with
  | none => none
  | some none => some (Except.error (TimeErr.Other
      "An error occurred while clamping the window size. Ensure the window size is factor of 60."))
  | some (some w) =>
      match closest_floor frame.start w with
      | none => none
      | some none => some (Except.error TimeErr.Floor)
      | some (some fs) =>
          match closest_ceil frame.«end» w with
          | none => none
          | some none => some (Except.error TimeErr.Ceil)
          | some (some fe) =>
              let delta := fe - fs
              if 15 ≤ num_weeks delta then some (Except.error TimeErr.FrameTooLarge)
              else if num_minutes delta ≤ 0 then
                some (Except.error (TimeErr.Other
                  "Difference between start and end must be greater than 1"))
              else
                some (Except.ok (split_walk w fe ((fe - fs).toNat / (w * 60000000000) + 1) fs))

/-- `Timeframe::into_even` (src/lib.rs). -/
def Timeframe.into_even (self : Timeframe) (window : TimeWindow) : EvenTimeframe :=
  EvenTimeframe.new self.start window

/-! ## Basic facts about the DateTime field model -/

lemma minute_lt (t : Int) : minute t < 60 := by
  simp only [minute, nanosPerMin, nanosPerSec]; omega

lemma second_lt (t : Int) : second t < 60 := by
  simp only [second, nanosPerSec]; omega

lemma subsec_nonneg (t : Int) : 0 ≤ subsec t := by
  simp only [subsec, nanosPerSec]; omega

lemma subsec_lt (t : Int) : subsec t < nanosPerSec := by
  simp only [subsec, nanosPerSec]; omega

lemma decomp (t : Int) :
    t = nanosPerHour * hourIdx t + nanosPerMin * (minute t : Int)
        + nanosPerSec * (second t : Int) + subsec t := by
  simp only [minute, second, subsec, hourIdx, nanosPerSec, nanosPerMin, nanosPerHour]; omega

/-! ## clamp_window -/

lemma clamp_window_of_dvd (w : Nat) (hw : w ∣ 60) : clamp_window w = some (some w) := by
  have hw0 : w ≠ 0 := by rintro rfl; exact absurd hw (by decide)
  have h60 : 60 % w = 0 := Nat.mod_eq_zero_of_dvd hw
  have h1 : 1 ≤ w := Nat.one_le_iff_ne_zero.mpr hw0
  have hle : w ≤ 60 := Nat.le_of_dvd (by norm_num) hw
  simp only [clamp_window, if_neg hw0, h60, ne_eq, not_true_eq_false, if_false,
    Option.some.injEq]
  rw [max_eq_left h1, min_eq_left hle]

lemma clamp_window_eq {w w' : Nat} (h : clamp_window w = some (some w')) :
    w ∣ 60 ∧ w' = w := by
  by_cases hw0 : w = 0
  · subst hw0; simp [clamp_window] at h
  · by_cases h60 : 60 % w = 0
    · have hdvd : w ∣ 60 := Nat.dvd_of_mod_eq_zero h60
      have hle : w ≤ 60 := Nat.le_of_dvd (by norm_num) hdvd
      have h1 : 1 ≤ w := Nat.one_le_iff_ne_zero.mpr hw0
      simp only [clamp_window, if_neg hw0, h60, ne_eq, not_true_eq_false, if_false,
        Option.some.injEq] at h
      rw [max_eq_left h1, min_eq_left hle] at h
      exact ⟨hdvd, h.symm⟩
    · simp [clamp_window, hw0, h60] at h

/-! ## Closed forms for closest_floor and closest_ceil -/

lemma closest_floor_spec (t : Int) (w : Nat) (hw : w ∣ 60) :
    closest_floor t w =
      some (some (t - ((minute t % w : Nat) : Int) * nanosPerMin
                    - ((second t : Nat) : Int) * nanosPerSec)) := by
  have hμ : minute t < 60 := minute_lt t
  have hm : (minute t / w) * w < 60 :=
    Nat.lt_of_le_of_lt (Nat.div_mul_le_self _ _) hμ
  unfold closest_floor prep_time
  rw [clamp_window_of_dvd w hw]
  simp only [with_minute, if_pos hm, Option.some_bind, with_second,
    if_pos (by norm_num : (0 : Nat) < 60), Option.some.injEq]
  have hdm : minute t / w * w + minute t % w = minute t := by
    rw [Nat.mul_comm]; exact Nat.div_add_mod _ _
  generalize minute t / w * w = A at hm hdm ⊢
  generalize minute t % w = R at hdm ⊢
  simp only [minute, second, subsec, nanosPerSec, nanosPerMin] at hdm ⊢
  omega

lemma closest_floor_facts (t : Int) (w : Nat) (hw : w ∣ 60) :
    ∃ ft, closest_floor t w = some (some ft) ∧
      minute ft = (minute t / w) * w ∧ second ft = 0 ∧ subsec ft = subsec t ∧
      hourIdx ft = hourIdx t ∧ ft ≤ t ∧ minute ft % w = 0 ∧
      (minute t % w = 0 → second t = 0 → ft = t) := by
  refine ⟨_, closest_floor_spec t w hw, ?_, ?_, ?_, ?_, ?_, ?_, ?_⟩
  all_goals
    have hdm : minute t / w * w + minute t % w = minute t := by
      rw [Nat.mul_comm]; exact Nat.div_add_mod _ _
  case _ =>  -- minute ft = (minute t / w) * w
    generalize hA : minute t / w * w = A at hdm ⊢
    generalize hR : minute t % w = R at hdm ⊢
    simp only [minute, second, subsec, nanosPerSec, nanosPerMin] at hdm ⊢
    omega
  case _ =>  -- second ft = 0
    generalize hR : minute t % w = R at hdm ⊢
    simp only [minute, second, subsec, nanosPerSec, nanosPerMin] at hdm ⊢
    omega
  case _ =>  -- subsec ft = subsec t
    generalize hR : minute t % w = R at hdm ⊢
    simp only [minute, second, subsec, nanosPerSec, nanosPerMin] at hdm ⊢
    omega
  case _ =>  -- hourIdx ft = hourIdx t
    generalize hR : minute t % w = R at hdm ⊢
    simp only [minute, second, subsec, hourIdx, nanosPerSec, nanosPerMin,
      nanosPerHour] at hdm ⊢
    omega
  case _ =>  -- ft ≤ t
    generalize hR : minute t % w = R at hdm ⊢
    simp only [minute, second, subsec, nanosPerSec, nanosPerMin] at hdm ⊢
    omega
  case _ =>  -- minute ft % w = 0
    have h1 : minute (t - ((minute t % w : Nat) : Int) * nanosPerMin
        - ((second t : Nat) : Int) * nanosPerSec) = minute t / w * w := by
      generalize hA : minute t / w * w = A at hdm ⊢
      generalize hR : minute t % w = R at hdm ⊢
      simp only [minute, second, subsec, nanosPerSec, nanosPerMin] at hdm ⊢
      omega
    rw [h1, Nat.mul_mod_left]
  case _ =>  -- idempotence on aligned input
    intro h0 hs0
    rw [h0, hs0]
    simp

/-- Arithmetic of the `div_ceil`-based target minute `((μ + w - 1) / w) * w`. -/
lemma ceil_cc_facts (μ w : Nat) (hw1 : 1 ≤ w) :
    μ ≤ ((μ + w - 1) / w) * w ∧ ((μ + w - 1) / w) * w % w = 0 ∧
    (μ % w = 0 → ((μ + w - 1) / w) * w = μ) ∧
    (μ % w ≠ 0 → μ < ((μ + w - 1) / w) * w) := by
  have hdm : ((μ + w - 1) / w) * w + (μ + w - 1) % w = μ + w - 1 := by
    rw [Nat.mul_comm]; exact Nat.div_add_mod _ _
  have hmodlt : (μ + w - 1) % w < w := Nat.mod_lt _ (by omega)
  have hμdm : (μ / w) * w + μ % w = μ := by rw [Nat.mul_comm]; exact Nat.div_add_mod _ _
  have hmul0 : ((μ + w - 1) / w) * w % w = 0 := Nat.mul_mod_left _ _
  have hle : μ ≤ ((μ + w - 1) / w) * w := by omega
  have haligned : μ % w = 0 → ((μ + w - 1) / w) * w = μ := by
    intro h0
    have hk : μ = w * (μ / w) := by
      have := Nat.div_add_mod μ w; omega
    rw [show μ + w - 1 = (w - 1) + w * (μ / w) from by omega,
      Nat.add_mul_div_left _ _ (by omega : 0 < w),
      Nat.div_eq_of_lt (by omega), Nat.zero_add, Nat.mul_comm]
    exact hk.symm
  refine ⟨hle, hmul0, haligned, ?_⟩
  intro h0
  rcases Nat.lt_or_ge μ (((μ + w - 1) / w) * w) with h | h
  · exact h
  · exact absurd (by rw [le_antisymm h hle] at hmul0; exact hmul0) h0

lemma closest_ceil_spec (t : Int) (w : Nat) (hw : w ∣ 60) :
    closest_ceil t w =
      some (some (if 60 ≤ (minute t + w - 1) / w * w then
          t + nanosPerHour - (minute t : Int) * nanosPerMin - (second t : Int) * nanosPerSec
        else
          t + ((((minute t + w - 1) / w * w : Nat) : Int) - (minute t : Int)) * nanosPerMin
            - (second t : Int) * nanosPerSec)) := by
  simp only [closest_ceil, prep_time, clamp_window_of_dvd w hw]
  by_cases h60 : 60 ≤ (minute t + w - 1) / w * w
  · rw [if_pos h60, if_pos h60]
    simp only [checked_add_hours, Option.some_bind, with_minute,
      if_pos (by norm_num : (0 : Nat) < 60), with_second, Option.some.injEq]
    simp only [minute, second, nanosPerSec, nanosPerMin, nanosPerHour]
    omega
  · rw [if_neg h60, if_neg h60]
    have hlt : (minute t + w - 1) / w * w < 60 := by omega
    simp only [with_minute, if_pos hlt, Option.some_bind, with_second,
      if_pos (by norm_num : (0 : Nat) < 60), Option.some.injEq]
    generalize (minute t + w - 1) / w * w = A at hlt ⊢
    simp only [minute, second, nanosPerSec, nanosPerMin]
    omega

lemma closest_ceil_facts (t : Int) (w : Nat) (hw : w ∣ 60) :
    ∃ ct, closest_ceil t w = some (some ct) ∧
      second ct = 0 ∧ subsec ct = subsec t ∧ minute ct % w = 0 ∧
      ((second t = 0 ∨ minute t % w ≠ 0) → t ≤ ct) ∧
      (minute t % w = 0 → second t = 0 → ct = t) := by
  have hw1 : 1 ≤ w := Nat.one_le_iff_ne_zero.mpr (by rintro rfl; exact absurd hw (by decide))
  obtain ⟨hccge, hccmod, hccal, hccnal⟩ := ceil_cc_facts (minute t) w hw1
  rw [closest_ceil_spec t w hw]
  by_cases h60 : 60 ≤ (minute t + w - 1) / w * w
  · rw [if_pos h60]
    refine ⟨_, rfl, ?_, ?_, ?_, ?_, ?_⟩
    · simp only [minute, second, nanosPerSec, nanosPerMin, nanosPerHour]; omega
    · simp only [minute, second, subsec, nanosPerSec, nanosPerMin, nanosPerHour]; omega
    · have h0 : minute (t + nanosPerHour - (minute t : Int) * nanosPerMin
          - (second t : Int) * nanosPerSec) = 0 := by
        simp only [minute, second, nanosPerSec, nanosPerMin, nanosPerHour]; omega
      rw [h0, Nat.zero_mod]
    · intro _
      simp only [minute, second, nanosPerSec, nanosPerMin, nanosPerHour]; omega
    · intro hal _
      rw [hccal hal] at h60
      exact absurd h60 (by have := minute_lt t; omega)
  · rw [if_neg h60]
    have hlt : (minute t + w - 1) / w * w < 60 := by omega
    refine ⟨_, rfl, ?_, ?_, ?_, ?_, ?_⟩
    · generalize (minute t + w - 1) / w * w = A at hlt ⊢
      simp only [minute, second, nanosPerSec, nanosPerMin]; omega
    · generalize (minute t + w - 1) / w * w = A at hlt ⊢
      simp only [minute, second, subsec, nanosPerSec, nanosPerMin]; omega
    · have h0 : minute (t + ((((minute t + w - 1) / w * w : Nat) : Int) - (minute t : Int))
          * nanosPerMin - (second t : Int) * nanosPerSec) = (minute t + w - 1) / w * w := by
        generalize (minute t + w - 1) / w * w = A at hlt hccge ⊢
        simp only [minute, second, nanosPerSec, nanosPerMin] at hccge ⊢
        omega
      rw [h0]; exact hccmod
    · rintro (hs0 | hnal)
      · simp only [second, nanosPerSec] at hs0
        generalize (minute t + w - 1) / w * w = A at hlt hccge ⊢
        simp only [minute, second, nanosPerSec, nanosPerMin] at hccge ⊢
        omega
      · have hgt := hccnal hnal
        generalize (minute t + w - 1) / w * w = A at hlt hgt ⊢
        simp only [minute, second, nanosPerSec, nanosPerMin] at hgt ⊢
        omega
    · intro hal hs0
      rw [hccal hal, hs0]
      push_cast
      ring

/-! ## chrono TimeDelta accessors -/

lemma le_tdiv_iff (x k n : Int) (hk : 0 < k) (hn : 1 ≤ n) : n ≤ x.tdiv k ↔ n * k ≤ x := by
  rcases le_or_lt 0 x with hx | hx
  · rw [Int.tdiv_eq_ediv hx hk.le, Int.le_ediv_iff_mul_le hk]
  · have h1 : x.tdiv k ≤ 0 := by
      have hneg : x.tdiv k = -((-x).tdiv k) := by rw [Int.neg_tdiv, neg_neg]
      have h2 : 0 ≤ (-x).tdiv k := by
        rw [Int.tdiv_eq_ediv (by omega) hk.le]
        exact Int.ediv_nonneg (by omega) hk.le
      omega
    have h3 : 0 < n * k := mul_pos (by omega) hk
    constructor <;> intro <;> omega

lemma num_weeks_ge15_iff (d : Int) : 15 ≤ num_weeks d ↔ 9072000000000000 ≤ d := by
  unfold num_weeks num_days num_seconds nanosPerSec
  rw [le_tdiv_iff _ _ _ (by norm_num) (by norm_num),
    le_tdiv_iff _ _ _ (by norm_num) (by norm_num),
    le_tdiv_iff _ _ _ (by norm_num) (by norm_num)]
  norm_num

lemma num_minutes_nonpos_iff (d : Int) : num_minutes d ≤ 0 ↔ d < 60000000000 := by
  have h1 : 1 ≤ num_minutes d ↔ (60000000000 : Int) ≤ d := by
    unfold num_minutes num_seconds nanosPerSec
    rw [le_tdiv_iff _ _ _ (by norm_num) (by norm_num),
      le_tdiv_iff _ _ _ (by norm_num) (by norm_num)]
    norm_num
  omega

lemma num_minutes_of_mul (D : Int) : num_minutes (nanosPerMin * D) = D := by
  unfold num_minutes num_seconds nanosPerMin nanosPerSec
  rw [show (60 : Int) * 1000000000 * D = 1000000000 * (60 * D) from by ring,
    Int.mul_tdiv_cancel_left _ (by norm_num : (1000000000 : Int) ≠ 0),
    Int.mul_tdiv_cancel_left _ (by norm_num : (60 : Int) ≠ 0)]

/-! ## closest_factor_of_60 on divisors of 60 -/

lemma cf60_fixed_on_divisors :
    ∀ v : Fin 61, 60 % v.val = 0 ∧ v.val ≠ 0 → closest_factor_of_60 v.val = v.val := by
  decide

lemma cf60_of_dvd (w : Nat) (hw : w ∣ 60) : closest_factor_of_60 w = w := by
  have hle : w ≤ 60 := Nat.le_of_dvd (by norm_num) hw
  exact cf60_fixed_on_divisors ⟨w, by omega⟩
    ⟨Nat.mod_eq_zero_of_dvd hw, by rintro rfl; exact absurd hw (by decide)⟩

/-! ## EvenTimeframe.new on aligned input -/

lemma new_eq_of_aligned (t : Int) (w : Nat) (hw : w ∣ 60) (hm : minute t % w = 0)
    (hs : second t = 0) :
    EvenTimeframe.new t w = ⟨⟨t, t + (w : Int) * nanosPerMin⟩, w⟩ := by
  obtain ⟨ft, hf, _, _, _, _, _, _, hid⟩ := closest_floor_facts t w hw
  obtain rfl : ft = t := hid hm hs
  simp only [EvenTimeframe.new, EvenTimeframe.align, cf60_of_dvd w hw, hf]

/-! ## The emission loop of split -/

lemma split_walk_eq (w : Nat) (hw : 0 < w) :
    ∀ (K fuel : Nat) (curr : Int), K ≤ fuel →
      split_walk w (curr + (K : Int) * ((w : Int) * nanosPerMin)) fuel curr =
        (List.range K).map (fun (i : Nat) =>
          (⟨⟨curr + (i : Int) * ((w : Int) * nanosPerMin),
            curr + ((i : Int) + 1) * ((w : Int) * nanosPerMin)⟩, w⟩ : EvenTimeframe)) := by
  have hW : 0 < (w : Int) * nanosPerMin := by
    have h1 : (1 : Int) ≤ (w : Int) := by exact_mod_cast hw
    have h2 : (0 : Int) < nanosPerMin := by norm_num [nanosPerMin, nanosPerSec]
    nlinarith
  intro K
  induction K with
  | zero =>
    intro fuel curr _
    simp only [Nat.cast_zero, zero_mul, add_zero, List.range_zero, List.map_nil]
    cases fuel with
    | zero => rfl
    | succ f => simp [split_walk]
  | succ K ih =>
    intro fuel curr hf
    cases fuel with
    | zero => omega
    | succ f =>
      have hcond : curr < curr + ((K + 1 : Nat) : Int) * ((w : Int) * nanosPerMin) := by
        have h1 : 0 < ((K + 1 : Nat) : Int) * ((w : Int) * nanosPerMin) := by
          apply mul_pos _ hW
          push_cast
          positivity
        omega
      have hstop : curr + ((K + 1 : Nat) : Int) * ((w : Int) * nanosPerMin) =
          (curr + (w : Int) * nanosPerMin) + (K : Int) * ((w : Int) * nanosPerMin) := by
        push_cast
        ring
      simp only [split_walk, if_pos hcond]
      rw [hstop, ih f (curr + (w : Int) * nanosPerMin) (by omega),
        List.range_succ_eq_map, List.map_cons, List.map_map, List.cons.injEq]
      constructor
      · simp only [EvenTimeframe.mk.injEq, Timeframe.mk.injEq, Nat.cast_zero]
        norm_num
      · refine List.map_congr_left ?_
        intro i _
        simp only [Function.comp_apply, EvenTimeframe.mk.injEq, Timeframe.mk.injEq]
        exact ⟨⟨by push_cast; ring, by push_cast; ring⟩, trivial⟩

/-! ## Shape of a successful split -/

lemma split_ok (frame : Timeframe) (w : Nat) (frames : List EvenTimeframe)
    (hs : EvenTimeframe.split frame w = some (Except.ok frames))
    (hsub : subsec frame.start = subsec frame.«end») :
    ∃ (fs fe : Int) (K : Nat),
      closest_floor frame.start w = some (some fs) ∧
      closest_ceil frame.«end» w = some (some fe) ∧
      w ∣ 60 ∧ 0 < K ∧
      fe = fs + (K : Int) * ((w : Int) * nanosPerMin) ∧
      minute fs % w = 0 ∧ second fs = 0 ∧ minute fe % w = 0 ∧ second fe = 0 ∧
      frames = (List.range K).map (fun (i : Nat) =>
        (⟨⟨fs + (i : Int) * ((w : Int) * nanosPerMin),
          fs + ((i : Int) + 1) * ((w : Int) * nanosPerMin)⟩, w⟩ : EvenTimeframe)) := by
  unfold EvenTimeframe.split at hs
  have hw : w ∣ 60 := by
    rcases hcw : clamp_window w with _ | w1
    · rw [hcw] at hs; exact absurd hs (by simp)
    rcases w1 with _ | w'
    · rw [hcw] at hs; exact absurd hs (by simp)
    exact (clamp_window_eq hcw).1
  have hw1 : 0 < w := Nat.pos_of_ne_zero (by rintro rfl; exact absurd hw (by decide))
  obtain ⟨fs, hf, hfm, hfs0, hfsub, hfH, hfle, hfmod, hfid⟩ :=
    closest_floor_facts frame.start w hw
  obtain ⟨fe, hc, hcs0, hcsub, hcmod, hcle, hcid⟩ := closest_ceil_facts frame.«end» w hw
  simp only [clamp_window_of_dvd w hw, hf, hc] at hs
  split_ifs at hs with h15 hmin
  · exact absurd hs (by simp)
  · exact absurd hs (by simp)
  have hfr : frames = split_walk w fe ((fe - fs).toNat / (w * 60000000000) + 1) fs := by
    simpa using hs.symm
  -- the aligned difference is an exact positive multiple of the window
  set He := hourIdx fe with hHe
  set Hf := hourIdx fs with hHf
  set me := minute fe with hme
  set mf := minute fs with hmf
  have hde := decomp fe
  have hdf := decomp fs
  rw [hcs0] at hde
  rw [hfs0] at hdf
  have hsubeq : subsec fs = subsec fe := by rw [hfsub, hcsub]; exact hsub
  have hD : fe - fs = nanosPerMin * (60 * (He - Hf) + ((me : Int) - (mf : Int))) := by
    rw [hde, hdf, hsubeq]
    simp only [nanosPerHour]
    push_cast
    ring
  have hwd : (w : Int) ∣ (60 * (He - Hf) + ((me : Int) - (mf : Int))) := by
    have h1 : (w : Int) ∣ (60 : Int) := by exact_mod_cast Int.natCast_dvd_natCast.mpr hw
    have h2 : (w : Int) ∣ (me : Int) :=
      Int.natCast_dvd_natCast.mpr (Nat.dvd_of_mod_eq_zero hcmod)
    have h3 : (w : Int) ∣ (mf : Int) :=
      Int.natCast_dvd_natCast.mpr (Nat.dvd_of_mod_eq_zero hfmod)
    exact dvd_add (h1.mul_right _) (dvd_sub h2 h3)
  obtain ⟨KI, hKI⟩ := hwd
  have hDpos : 0 < 60 * (He - Hf) + ((me : Int) - (mf : Int)) := by
    rw [hD, num_minutes_of_mul] at hmin
    omega
  have hKIpos : 0 < KI := by
    rcases lt_or_le 0 KI with h | h
    · exact h
    · exfalso
      have h2 : (w : Int) * KI ≤ (w : Int) * 0 :=
        mul_le_mul_of_nonneg_left h (by positivity)
      rw [mul_zero] at h2
      omega
  have hKnat : ((KI.toNat : Nat) : Int) = KI := Int.toNat_of_nonneg hKIpos.le
  refine ⟨fs, fe, KI.toNat, hf, hc, hw, by omega, ?_, hfmod, hfs0, hcmod, hcs0, ?_⟩
  · rw [hKnat]
    linear_combination hD + nanosPerMin * hKI
  · have hfeq : fe = fs + ((KI.toNat : Nat) : Int) * ((w : Int) * nanosPerMin) := by
      rw [hKnat]
      linear_combination hD + nanosPerMin * hKI
    have htoNat : (fe - fs).toNat = KI.toNat * (w * 60000000000) := by
      have : fe - fs = ((KI.toNat * (w * 60000000000) : Nat) : Int) := by
        rw [hfeq]
        push_cast
        simp only [nanosPerMin, nanosPerSec]
        ring
      rw [this, Int.toNat_natCast]
    have hfuel : (fe - fs).toNat / (w * 60000000000) + 1 = KI.toNat + 1 := by
      rw [htoNat, Nat.mul_div_cancel _ (by positivity)]
    rw [hfr, hfuel]
    calc split_walk w fe (KI.toNat + 1) fs
        = split_walk w (fs + ((KI.toNat : Nat) : Int) * ((w : Int) * nanosPerMin))
            (KI.toNat + 1) fs := by rw [← hfeq]
      _ = _ := split_walk_eq w hw1 KI.toNat (KI.toNat + 1) fs (by omega)


/-! ## Claim theorems -/

/-- C1: the spec claims `clamp_window` clamps its argument into `[1, 60]` before
testing divisibility and never panics, so `clamp_window(0) = Some(1)`,
`clamp_window(61) = Some(60)`, and `split` does not panic on such windows.  The
code evaluates `60 % window` first, so window 0 panics (Rust `%` by zero; outer
`none` in the model), window 61 yields `None` rather than `Some(60)`, and
`split` with window 0 panics as well. -/
theorem C1_clamp_window_panic_bug :
    clamp_window 0 = none ∧ clamp_window 61 = some none ∧
    EvenTimeframe.split ⟨0, 3600000000000⟩ 0 = none := by
  refine ⟨rfl, rfl, rfl⟩

/-- C4 counterexample: the claim says `t ≤ closest_ceil(t, w)` for every
timestamp; but for `t` = 00:10:30 (630000000000 ns) and window 5 the code
returns 00:10:00 (600000000000 ns), which is strictly before `t`, because the
minute is already aligned and only the second field is cleared. -/
theorem C4_ceil_before_input_counterexample :
    closest_ceil 630000000000 5 = some (some 600000000000) ∧
    ¬ ((630000000000 : Int) ≤ (600000000000 : Int)) := by
  refine ⟨rfl, by norm_num⟩

/-- C4 (amended): for every window `w` dividing 60 (i.e. in
{1,2,3,4,5,6,10,12,15,20,30,60}) and timestamp `t`, `closest_floor(t,w) ≤ t`,
both results have a zero second component, and `t ≤ closest_ceil(t,w)` holds
whenever `t`'s second component is 0 or `t`'s minute is not already a multiple
of `w` (when the minute is aligned and the second is nonzero, the ceil result
is before `t`). -/
theorem C4_floor_le_le_ceil_amended (t : Int) (w : Nat) (hw : w ∣ 60) :
    ∃ ft ct, closest_floor t w = some (some ft) ∧ closest_ceil t w = some (some ct) ∧
      ft ≤ t ∧ second ft = 0 ∧ second ct = 0 ∧
      ((second t = 0 ∨ minute t % w ≠ 0) → t ≤ ct) := by
  obtain ⟨ft, hf, _, hs0, _, _, hle, _, _⟩ := closest_floor_facts t w hw
  obtain ⟨ct, hc, hcs0, _, _, hcle, _⟩ := closest_ceil_facts t w hw
  exact ⟨ft, ct, hf, hc, hle, hs0, hcs0, hcle⟩

/-- Witness for C4 at `t` = 00:01:11 (71000000000 ns) and `w` = 5. -/
theorem C4_floor_le_le_ceil_amended_witness :
    (5 : Nat) ∣ 60 ∧
    (∃ ft ct, closest_floor 71000000000 5 = some (some ft) ∧
      closest_ceil 71000000000 5 = some (some ct) ∧
      ft ≤ 71000000000 ∧ second ft = 0 ∧ second ct = 0 ∧
      ((second (71000000000 : Int) = 0 ∨ minute (71000000000 : Int) % 5 ≠ 0) →
        (71000000000 : Int) ≤ ct)) :=
  ⟨by decide, C4_floor_le_le_ceil_amended 71000000000 5 (by decide)⟩

/-- C5 counterexample: the claim says `closest_floor` zeroes the sub-second
components; but for `t` = 1 ns past midnight with window 1 the result is `t`
itself, whose sub-second component is 1, not 0 (chrono `with_second` does not
touch nanoseconds). -/
theorem C5_subsec_preserved_counterexample :
    closest_floor 1 1 = some (some 1) ∧ subsec (1 : Int) ≠ 0 := by
  refine ⟨rfl, by decide⟩

/-- C5 (amended): for every timestamp `t` and window `w` dividing 60,
`closest_floor(t,w)` has minute `(minute(t) / w) * w`, a zero second
component, an unchanged (not zeroed) sub-second component, and an unchanged
hour (hence unchanged day and zone, which the model represents by the hour
index). -/
theorem C5_floor_fields_amended (t : Int) (w : Nat) (hw : w ∣ 60) :
    ∃ ft, closest_floor t w = some (some ft) ∧
      minute ft = minute t / w * w ∧ second ft = 0 ∧
      subsec ft = subsec t ∧ hourIdx ft = hourIdx t := by
  obtain ⟨ft, hf, hm, hs0, hsub, hH, _, _, _⟩ := closest_floor_facts t w hw
  exact ⟨ft, hf, hm, hs0, hsub, hH⟩

/-- Witness for C5 at `t` = 00:10:30.5 (630500000000 ns) and `w` = 15. -/
theorem C5_floor_fields_amended_witness :
    (15 : Nat) ∣ 60 ∧
    (∃ ft, closest_floor 630500000000 15 = some (some ft) ∧
      minute ft = minute (630500000000 : Int) / 15 * 15 ∧ second ft = 0 ∧
      subsec ft = subsec (630500000000 : Int) ∧
      hourIdx ft = hourIdx (630500000000 : Int)) :=
  ⟨by decide, C5_floor_fields_amended 630500000000 15 (by decide)⟩

/-- C6: the claim (and the `EvenTimeframe` doc comment, "the seconds &
milliseconds is always 00") says every produced frame has a start with zero
second and sub-second components.  The code never clears sub-second
components: `EvenTimeframe::new` on 00:00:00.5 (500000000 ns) with window 5
keeps the start at 00:00:00.5, whose sub-second part is 500000000 ns,
violating invariant (1).  The code contradicts its own documentation, so this
is recorded as a code bug at this failing input. -/
theorem C6_subsec_invariant_bug :
    (EvenTimeframe.new 500000000 5).frame.start = 500000000 ∧
    subsec ((EvenTimeframe.new 500000000 5).frame.start) = 500000000 ∧
    subsec ((EvenTimeframe.new 500000000 5).frame.start) ≠ 0 := by
  refine ⟨rfl, rfl, by decide⟩

/-- C9: on an already-aligned timestamp (zero second component, minute a
multiple of the window), `closest_floor` and `closest_ceil` both return the
timestamp unchanged. -/
theorem C9_idempotent_on_aligned (t : Int) (w : Nat) (hw : w ∣ 60)
    (hsec : second t = 0) (hmin : minute t % w = 0) :
    closest_floor t w = some (some t) ∧ closest_ceil t w = some (some t) := by
  obtain ⟨ft, hf, _, _, _, _, _, _, hfid⟩ := closest_floor_facts t w hw
  obtain ⟨ct, hc, _, _, _, _, hcid⟩ := closest_ceil_facts t w hw
  rw [hf, hc, hfid hmin hsec, hcid hmin hsec]
  exact ⟨rfl, rfl⟩

/-- Witness for C9 at `t` = 00:05:00 (300000000000 ns) and `w` = 5. -/
theorem C9_idempotent_on_aligned_witness :
    (5 : Nat) ∣ 60 ∧ second (300000000000 : Int) = 0 ∧
    minute (300000000000 : Int) % 5 = 0 ∧
    closest_floor 300000000000 5 = some (some 300000000000) ∧
    closest_ceil 300000000000 5 = some (some 300000000000) := by
  refine ⟨by decide, by decide, by decide, ?_, ?_⟩
  · exact (C9_idempotent_on_aligned 300000000000 5 (by decide) (by decide) (by decide)).1
  · exact (C9_idempotent_on_aligned 300000000000 5 (by decide) (by decide) (by decide)).2

/-- C10: for every `EvenTimeframe` whose end is its start plus window minutes,
`next` and `prev` are mutual inverses (`tf.next().prev() == tf` and
`tf.prev().next() == tf`); both are pure, so `tf` itself is untouched. -/
theorem C10_next_prev_mutual_inverses (tf : EvenTimeframe)
    (h : tf.frame.«end» = tf.frame.start + (tf.window : Int) * nanosPerMin) :
    tf.next.prev = tf ∧ tf.prev.next = tf := by
  obtain ⟨⟨s, e⟩, w⟩ := tf
  simp only at h
  constructor
  · show (⟨⟨e - (w : Int) * nanosPerMin, e⟩, w⟩ : EvenTimeframe) = ⟨⟨s, e⟩, w⟩
    rw [h]
    simp
  · show (⟨⟨s, s + (w : Int) * nanosPerMin⟩, w⟩ : EvenTimeframe) = ⟨⟨s, e⟩, w⟩
    rw [h]

/-- Witness for C10 at the frame [00:00:00, 00:05:00) with window 5. -/
theorem C10_next_prev_mutual_inverses_witness :
    (⟨⟨0, 300000000000⟩, 5⟩ : EvenTimeframe).frame.«end» =
      (⟨⟨0, 300000000000⟩, 5⟩ : EvenTimeframe).frame.start +
        ((⟨⟨0, 300000000000⟩, 5⟩ : EvenTimeframe).window : Int) * nanosPerMin ∧
    (⟨⟨0, 300000000000⟩, 5⟩ : EvenTimeframe).next.prev = ⟨⟨0, 300000000000⟩, 5⟩ ∧
    (⟨⟨0, 300000000000⟩, 5⟩ : EvenTimeframe).prev.next = ⟨⟨0, 300000000000⟩, 5⟩ := by
  refine ⟨by decide, ?_, ?_⟩
  · exact (C10_next_prev_mutual_inverses _ (by decide)).1
  · exact (C10_next_prev_mutual_inverses _ (by decide)).2


/-- C7: for every `Timeframe` and window accepted by the strict validator
(equivalently, dividing 60), flooring and ceiling always succeed and `split`
returns `FrameTooLarge` exactly when the aligned difference is at least 15
weeks (9072000000000000 ns); in particular a too-large range yields
`FrameTooLarge` and never the degenerate-range error, matching the check
order. -/
theorem C7_frame_too_large_iff (frame : Timeframe) (w : Nat) (hw : w ∣ 60) :
    ∃ fs fe, closest_floor frame.start w = some (some fs) ∧
      closest_ceil frame.«end» w = some (some fe) ∧
      (EvenTimeframe.split frame w = some (Except.error TimeErr.FrameTooLarge) ↔
        9072000000000000 ≤ fe - fs) := by
  obtain ⟨fs, hf, _, _, _, _, _, _, _⟩ := closest_floor_facts frame.start w hw
  obtain ⟨fe, hc, _, _, _, _, _⟩ := closest_ceil_facts frame.«end» w hw
  refine ⟨fs, fe, hf, hc, ?_⟩
  unfold EvenTimeframe.split
  simp only [clamp_window_of_dvd w hw, hf, hc]
  rw [← num_weeks_ge15_iff]
  by_cases h15 : 15 ≤ num_weeks (fe - fs)
  · simp [h15]
  · by_cases hm : num_minutes (fe - fs) ≤ 0 <;> simp [h15, hm]

/-- Witness for C7: the range [0 ns, 9072000000000000 ns) (exactly 15 weeks)
with window 5 is rejected with `FrameTooLarge`. -/
theorem C7_frame_too_large_iff_witness :
    EvenTimeframe.split ⟨0, 9072000000000000⟩ 5 =
      some (Except.error TimeErr.FrameTooLarge) := by
  obtain ⟨fs, fe, hf, hc, hiff⟩ := C7_frame_too_large_iff ⟨0, 9072000000000000⟩ 5 (by decide)
  have h0 : closest_floor (0 : Int) 5 = some (some 0) := by decide
  have h1 : closest_ceil (9072000000000000 : Int) 5 = some (some 9072000000000000) := by
    decide
  rw [h0] at hf
  rw [h1] at hc
  obtain rfl : (0 : Int) = fs := by simpa using hf
  obtain rfl : (9072000000000000 : Int) = fe := by simpa using hc
  exact hiff.mpr (by norm_num)

/-- C8: `closest_factor_of_60` always returns the member of the ordered list
`FACTORS_60 = [1,2,3,4,5,6,10,12,15,20,30,60]` with the smallest absolute
difference (`Nat.dist`) to the input clamped into [0,60] (on `u32`, `min _ 60`),
breaking ties in favour of the earlier list position; in particular it never
fails, and `closest_factor_of_60` maps 17 to 15, 9 to 10 and 13 to 12. -/
theorem C8_closest_factor_of_60_spec (w : Nat) :
    closest_factor_of_60 w ∈ FACTORS_60 ∧
    (∀ y ∈ FACTORS_60,
      Nat.dist (min w 60) (closest_factor_of_60 w) ≤ Nat.dist (min w 60) y) ∧
    (∀ y ∈ FACTORS_60,
      Nat.dist (min w 60) y = Nat.dist (min w 60) (closest_factor_of_60 w) →
        FACTORS_60.indexOf (closest_factor_of_60 w) ≤ FACTORS_60.indexOf y) ∧
    closest_factor_of_60 17 = 15 ∧ closest_factor_of_60 9 = 10 ∧
    closest_factor_of_60 13 = 12 := by
  have hkey : ∀ v : Fin 61,
      closest_factor_of_60 v.val ∈ FACTORS_60 ∧
      (∀ y ∈ FACTORS_60,
        Nat.dist v.val (closest_factor_of_60 v.val) ≤ Nat.dist v.val y) ∧
      (∀ y ∈ FACTORS_60,
        Nat.dist v.val y = Nat.dist v.val (closest_factor_of_60 v.val) →
          FACTORS_60.indexOf (closest_factor_of_60 v.val) ≤ FACTORS_60.indexOf y) := by
    decide
  have hmin : closest_factor_of_60 w = closest_factor_of_60 (min w 60) := by
    simp only [closest_factor_of_60]
    rw [min_eq_left (min_le_right w 60)]
  have h := hkey ⟨min w 60, Nat.lt_succ_of_le (min_le_right w 60)⟩
  rw [← hmin] at h
  exact ⟨h.1, h.2.1, h.2.2, by decide, by decide, by decide⟩

/-- Witness for C8 at input 9: the result 10 is a member of the list and is at
least as close to 9 as the member 12 is. -/
theorem C8_closest_factor_of_60_spec_witness :
    closest_factor_of_60 9 ∈ FACTORS_60 ∧
    Nat.dist (min 9 60) (closest_factor_of_60 9) ≤ Nat.dist (min 9 60) 12 :=
  ⟨(C8_closest_factor_of_60_spec 9).1,
    (C8_closest_factor_of_60_spec 9).2.1 12 (by decide)⟩


/-- C2 counterexample: the claim says the last element of a successful split
equals `EvenTimeframe::new(closest_ceil(end, w), w)`.  For the range
[00:00:00, 00:04:00) with window 5 the split is the single frame
[00:00:00, 00:05:00), the ceiled end is 00:05:00, and
`EvenTimeframe::new(00:05:00, 5)` is the frame [00:05:00, 00:10:00) — one
window after the actual last element. -/
theorem C2_last_element_counterexample :
    EvenTimeframe.split ⟨0, 240000000000⟩ 5 =
      some (Except.ok [⟨⟨0, 300000000000⟩, 5⟩]) ∧
    closest_ceil (240000000000 : Int) 5 = some (some 300000000000) ∧
    EvenTimeframe.new 300000000000 5 ≠ (⟨⟨0, 300000000000⟩, 5⟩ : EvenTimeframe) := by
  refine ⟨by decide, by decide, by decide⟩

/-- C2 (amended): when `split` succeeds and the start and end of the input
share the same sub-second component, the result is pairwise contiguous, its
first element is `EvenTimeframe::new(closest_floor(start, w), w)`, and its
last element is `EvenTimeframe::new(closest_ceil(end, w), w).prev()` (the
window ENDING at the ceiled end, not starting there).  Without equal
sub-second components even the last element's end can differ from the ceiled
end, since the walk advances in exact window steps from the floored start. -/
theorem C2_split_shape_amended (frame : Timeframe) (w : Nat)
    (frames : List EvenTimeframe)
    (hs : EvenTimeframe.split frame w = some (Except.ok frames))
    (hsub : subsec frame.start = subsec frame.«end») :
    (∀ i, ∀ _h : i + 1 < frames.length,
      frames[i].frame.«end» = frames[i+1].frame.start) ∧
    (∃ fs, closest_floor frame.start w = some (some fs) ∧
      frames.head? = some (EvenTimeframe.new fs w)) ∧
    (∃ fe, closest_ceil frame.«end» w = some (some fe) ∧
      frames.getLast? = some ((EvenTimeframe.new fe w).prev)) := by
  obtain ⟨fs, fe, K, hf, hc, hw, hK, hfe, hfmod, hfs0, hcmod, hcs0, hfr⟩ :=
    split_ok frame w frames hs hsub
  obtain ⟨K', rfl⟩ : ∃ K', K = K' + 1 := ⟨K - 1, by omega⟩
  refine ⟨?_, ⟨fs, hf, ?_⟩, ⟨fe, hc, ?_⟩⟩
  · intro i h
    subst hfr
    simp only [List.length_map, List.length_range] at h
    simp only [List.getElem_map, List.getElem_range]
    push_cast
    ring
  · subst hfr
    rw [new_eq_of_aligned fs w hw hfmod hfs0, List.range_succ_eq_map,
      List.map_cons, List.head?_cons]
    simp only [Nat.cast_zero, Option.some.injEq, EvenTimeframe.mk.injEq,
      Timeframe.mk.injEq]
    norm_num
  · subst hfr
    rw [new_eq_of_aligned fe w hw hcmod hcs0, List.getLast?_eq_getElem?]
    simp only [List.length_map, List.length_range, Nat.add_sub_cancel,
      List.getElem?_map]
    rw [List.getElem?_range (by omega)]
    simp only [Option.map_some', Option.some.injEq, EvenTimeframe.prev,
      EvenTimeframe.mk.injEq, Timeframe.mk.injEq, and_true]
    constructor
    · rw [hfe]; push_cast; ring
    · rw [hfe]; push_cast; ring

/-- Witness for C2: the split of [00:00:00, 00:04:00) with window 5. -/
theorem C2_split_shape_amended_witness :
    EvenTimeframe.split ⟨0, 240000000000⟩ 5 =
      some (Except.ok [⟨⟨0, 300000000000⟩, 5⟩]) ∧
    subsec (0 : Int) = subsec (240000000000 : Int) ∧
    ((∀ i, ∀ _h : i + 1 < ([⟨⟨0, 300000000000⟩, 5⟩] : List EvenTimeframe).length,
        ([⟨⟨0, 300000000000⟩, 5⟩] : List EvenTimeframe)[i].frame.«end» =
          ([⟨⟨0, 300000000000⟩, 5⟩] : List EvenTimeframe)[i + 1].frame.start) ∧
      (∃ fs, closest_floor 0 5 = some (some fs) ∧
        ([⟨⟨0, 300000000000⟩, 5⟩] : List EvenTimeframe).head? =
          some (EvenTimeframe.new fs 5)) ∧
      (∃ fe, closest_ceil 240000000000 5 = some (some fe) ∧
        ([⟨⟨0, 300000000000⟩, 5⟩] : List EvenTimeframe).getLast? =
          some ((EvenTimeframe.new fe 5).prev))) :=
  ⟨by decide, by decide,
    C2_split_shape_amended ⟨0, 240000000000⟩ 5 [⟨⟨0, 300000000000⟩, 5⟩]
      (by decide) (by decide)⟩

/-- C3 counterexample: for the range [00:00:00.0, 00:04:59.5) with window 5
the ceiled end is 00:05:00.5 and the floored start is 00:00:00.0, so
`delta_minutes = 5` and the claim predicts `ceil(5 / 5) = 1` element whose end
is 00:05:00.5; the code emits 2 elements and the last end is 00:10:00.0. -/
theorem C3_count_counterexample :
    EvenTimeframe.split ⟨0, 299500000000⟩ 5 =
      some (Except.ok
        [⟨⟨0, 300000000000⟩, 5⟩, ⟨⟨300000000000, 600000000000⟩, 5⟩]) ∧
    closest_floor (0 : Int) 5 = some (some 0) ∧
    closest_ceil (299500000000 : Int) 5 = some (some 300500000000) ∧
    num_minutes ((300500000000 : Int) - 0) = 5 ∧
    ((num_minutes ((300500000000 : Int) - 0)).toNat + 5 - 1) / 5 = 1 ∧
    ([⟨⟨0, 300000000000⟩, 5⟩, ⟨⟨300000000000, 600000000000⟩, 5⟩] :
      List EvenTimeframe).length = 2 ∧
    (([⟨⟨0, 300000000000⟩, 5⟩, ⟨⟨300000000000, 600000000000⟩, 5⟩] :
      List EvenTimeframe).getLast?).map (fun fr => fr.frame.«end») =
        some 600000000000 ∧
    (600000000000 : Int) ≠ 300500000000 := by
  decide

/-- C3 (amended): when `split` succeeds and the start and end of the input
share the same sub-second component, the walk emits exactly
`ceil(delta_minutes / w)` elements, where `delta_minutes` is the whole-minute
difference between the ceiled end and the floored start (here an exact
multiple of `w`), and the last element's end is exactly the ceiled end. -/
theorem C3_count_amended (frame : Timeframe) (w : Nat)
    (frames : List EvenTimeframe)
    (hs : EvenTimeframe.split frame w = some (Except.ok frames))
    (hsub : subsec frame.start = subsec frame.«end») :
    ∃ fs fe, closest_floor frame.start w = some (some fs) ∧
      closest_ceil frame.«end» w = some (some fe) ∧
      frames.length = ((num_minutes (fe - fs)).toNat + w - 1) / w ∧
      frames.getLast?.map (fun fr => fr.frame.«end») = some fe := by
  obtain ⟨fs, fe, K, hf, hc, hw, hK, hfe, hfmod, hfs0, hcmod, hcs0, hfr⟩ :=
    split_ok frame w frames hs hsub
  have hw1 : 0 < w := Nat.pos_of_ne_zero (by rintro rfl; exact absurd hw (by decide))
  have hnm : num_minutes (fe - fs) = ((K * w : Nat) : Int) := by
    have h1 : fe - fs = nanosPerMin * ((K * w : Nat) : Int) := by
      rw [hfe]; push_cast; ring
    rw [h1, num_minutes_of_mul]
  refine ⟨fs, fe, hf, hc, ?_, ?_⟩
  · rw [hfr, hnm, Int.toNat_natCast]
    simp only [List.length_map, List.length_range]
    have h1 : K * w + w - 1 = (w - 1) + w * K := by
      rw [Nat.mul_comm K w]; omega
    rw [h1, Nat.add_mul_div_left _ _ hw1, Nat.div_eq_of_lt (by omega), Nat.zero_add]
  · obtain ⟨K', rfl⟩ : ∃ K', K = K' + 1 := ⟨K - 1, by omega⟩
    rw [hfr, List.getLast?_eq_getElem?]
    simp only [List.length_map, List.length_range, Nat.add_sub_cancel,
      List.getElem?_map]
    rw [List.getElem?_range (by omega)]
    simp only [Option.map_some', Option.some.injEq]
    rw [hfe]; push_cast; ring

/-- Witness for C3: the split of [00:00:00, 00:04:00) with window 5. -/
theorem C3_count_amended_witness :
    EvenTimeframe.split ⟨0, 240000000000⟩ 5 =
      some (Except.ok [⟨⟨0, 300000000000⟩, 5⟩]) ∧
    subsec (0 : Int) = subsec (240000000000 : Int) ∧
    (∃ fs fe, closest_floor 0 5 = some (some fs) ∧
      closest_ceil 240000000000 5 = some (some fe) ∧
      ([⟨⟨0, 300000000000⟩, 5⟩] : List EvenTimeframe).length =
        ((num_minutes (fe - fs)).toNat + 5 - 1) / 5 ∧
      (([⟨⟨0, 300000000000⟩, 5⟩] : List EvenTimeframe).getLast?).map
        (fun fr => fr.frame.«end») = some fe) :=
  ⟨by decide, by decide,
    C3_count_amended ⟨0, 240000000000⟩ 5 [⟨⟨0, 300000000000⟩, 5⟩]
      (by decide) (by decide)⟩

end TimeframeLib
